import Mathlib

/-!
Shallow embedding of `src/traces/scattermapbox/convert.js` (plotly.js).

Modelling conventions:
* A JS coordinate value (`trace.lon[i]` / `trace.lat[i]`) is modelled after the
  `fast-isnumeric` check and the `+` coercion as `Option ℚ`: `some q` stands for a
  value on which `isNumeric` returns true and whose numeric coercion is `q`;
  `none` stands for every other value (`NaN`, `undefined`, non-numeric strings, an
  out-of-range read, ...).
* Raw marker style values are an abstract type `α` with decidable equality.  The
  JS hash object `hash[key]` keyed by the (stringified) raw value is modelled as an
  insertion-ordered association list `JMap α` whose keys are `Option α` (`none`
  models the `undefined` key produced by an out-of-range array read); `Object.keys`
  is the list of keys in insertion order, and assignment to an existing key keeps
  the key at its original position, exactly as for (non array-index) JS object keys.
* The external collaborators `makeBubbleSizeFn` (a value-to-radius function) and
  `makeColorScaleFn` (a value-to-color function) are opaque capabilities: the size
  function is a parameter of `convert`, and the color scale is a `Option`-valued
  trace field (`none` models `hasColorscale = false`, where the code uses
  `Lib.identity`).
* JS truthiness of `hash[key][value]` (a recorded index or `undefined`) is
  `truthy`: `undefined` and `0` are falsy, every other index is truthy.
-/

namespace ScatterMapbox

/-- A JS lon/lat entry after the `isNumeric` test: `some q` = numeric with value
`q`, `none` = invalid. -/
abbrev CoordVal := Option ℚ

/-- `checkLonLat(lon, lat)` (convert.js line 249): both components numeric. -/
def checkLonLat (lon lat : CoordVal) : Bool :=
  lon.isSome && lat.isSome

/-- `COLOR_PROP` (convert.js line 20). -/
def COLOR_PROP : String := "circle-color"

/-- `SIZE_PROP` (convert.js line 21). -/
def SIZE_PROP : String := "circle-size"

/-- A marker style attribute that may be a scalar or a per-point array
(`Array.isArray` discriminates the two in the source). -/
inductive StyleAttr (α : Type) where
  | scalar (v : α)
  | arr (l : List α)
deriving DecidableEq

/-- `marker.size`: a scalar number or a per-point array of raw values. -/
inductive SizeStyleAttr (α : Type) where
  | scalar (q : ℚ)
  | arr (l : List α)
deriving DecidableEq

/-- The input trace (read-only), restricted to the fields convert.js reads.
`hasLines` / `hasMarkers` stand for the external `subTypes.hasLines` /
`subTypes.hasMarkers` flags; `colorScaleFn` is `some f` when
`hasColorscale(trace, marker)` holds (then `f` models
`makeColorScaleFn(marker.colorscale, marker.cmin, marker.cmax)`), `none`
otherwise (the code then uses `Lib.identity`). -/
structure Trace (α : Type) where
  visible : Bool
  fill : String
  hasLines : Bool
  hasMarkers : Bool
  lon : List CoordVal
  lat : List CoordVal
  connectgaps : Bool
  fillcolor : α
  lineWidth : ℚ
  lineColor : α
  opacity : ℚ
  markerOpacity : ℚ
  markerColor : StyleAttr α
  markerSize : SizeStyleAttr α
  colorScaleFn : Option (Option α → Option α)

/-- The per-property value-to-index hash object: an insertion-ordered
association list. -/
abbrev JMap (α : Type) := List (Option α × ℕ)

/-- Property read `m[k]` on a JS object modelled as an assoc list: the first
binding of `k`, or `undefined` (`none`). -/
def jget {α : Type} [DecidableEq α] : JMap α → Option α → Option ℕ
  | [], _ => none
  | (k', v) :: m, k => if k' = k then some v else jget m k

/-- Property write `m[k] = v` on a JS object: overwrite the existing binding in
place (keys keep their insertion position) or append a new binding. -/
def jset {α : Type} [DecidableEq α] : JMap α → Option α → ℕ → JMap α
  | [], k, v => [(k, v)]
  | (k', v') :: m, k, v =>
    if k' = k then (k', v) :: m else (k', v') :: jset m k v

/-- `Object.keys(m)`: keys in insertion order. -/
def jkeys {α : Type} (m : JMap α) : List (Option α) :=
  m.map (fun e => e.1)

/-- JS truthiness of a recorded index: `undefined` and `0` are falsy. -/
def truthy : Option ℕ → Bool
  | none => false
  | some n => !(n == 0)

/-- The map update performed by `translate` (convert.js line 152):
`if(!hash[key][value]) hash[key][value] = index`. -/
def translateMap {α : Type} [DecidableEq α] (m : JMap α) (value : Option α)
    (index : ℕ) : JMap α :=
  if truthy (jget m value) then m else jset m value index

/-- `translate(props, key, cont, index)` (convert.js lines 149-155), returning
the index stored into `props[key]` together with the updated per-property map.
`cont[index]` is `cont.get? index` (`none` = `undefined`). -/
def translate {α : Type} [DecidableEq α] (m : JMap α) (cont : List α)
    (index : ℕ) : ℕ × JMap α :=
  let value := cont.get? index
  let m2 := translateMap m value index
  ((jget m2 value).getD 0, m2)

/-- The two per-property maps of the `hash` object built in `convert`
(convert.js lines 65-67): `hash[COLOR_PROP]` and `hash[SIZE_PROP]`. -/
structure MarkerHash (α : Type) where
  colorMap : JMap α
  sizeMap : JMap α
deriving DecidableEq

/-- One GeoJSON marker feature (convert.js lines 168-175): its point coordinates
plus the `properties` object (`circle-color` / `circle-size` index when the
corresponding style attribute is an array). -/
structure Feature where
  lonlat : ℚ × ℚ
  colorIdx : Option ℕ
  sizeIdx : Option ℕ
deriving DecidableEq

/-- One iteration of the `makeMarkerGeoJSON` loop (convert.js lines 159-177):
run `translate` for each array-valued style attribute (mutating the hash), then
push a feature only when the point passes `checkLonLat`. -/
def markerStep {α : Type} [DecidableEq α] (t : Trace α)
    (st : List Feature × MarkerHash α) (i : ℕ) : List Feature × MarkerHash α :=
  let lon := t.lon.getD i none
  let lat := t.lat.getD i none
  let cRes : Option ℕ × JMap α :=
    match t.markerColor with
    | .arr cont => ((translate st.2.colorMap cont i).1, (translate st.2.colorMap cont i).2)
    | .scalar _ => (none, st.2.colorMap)
  let cIdx : Option ℕ :=
    match t.markerColor with
    | .arr _ => some (cRes.1.getD 0)
    | .scalar _ => none
  let sRes : Option ℕ × JMap α :=
    match t.markerSize with
    | .arr cont => ((translate st.2.sizeMap cont i).1, (translate st.2.sizeMap cont i).2)
    | .scalar _ => (none, st.2.sizeMap)
  let sIdx : Option ℕ :=
    match t.markerSize with
    | .arr _ => some (sRes.1.getD 0)
    | .scalar _ => none
  let features :=
    if checkLonLat lon lat then
      st.1 ++ [⟨(lon.getD 0, lat.getD 0), cIdx, sIdx⟩]
    else st.1
  (features, ⟨cRes.2, sRes.2⟩)

/-- `makeMarkerGeoJSON(trace, hash)` (convert.js lines 141-183): the features of
the returned FeatureCollection together with the final state of the (mutated)
`hash` object, starting from the fresh empty hash of convert.js lines 65-67. -/
def makeMarkerGeoJSON {α : Type} [DecidableEq α] (t : Trace α) :
    List Feature × MarkerHash α :=
  (List.range t.lon.length).foldl (markerStep t) ([], ⟨[], []⟩)

/-- The `circle-color` paint value produced by `calcMarkerColor`: a pass-through
scalar or a stop spec `{property, stops}`. -/
inductive ColorPaint (α : Type) where
  | scalar (v : α)
  | stops (property : String) (stops : List (ℕ × Option α))
deriving DecidableEq

/-- The stop list of a color paint value (`[]` for a scalar). -/
def ColorPaint.stopList {α : Type} : ColorPaint α → List (ℕ × Option α)
  | .scalar _ => []
  | .stops _ s => s

/-- Whether a color paint value is a stop spec. -/
def ColorPaint.isStops {α : Type} : ColorPaint α → Bool
  | .scalar _ => false
  | .stops _ _ => true

/-- The `property` field of a color paint value, when it is a stop spec. -/
def ColorPaint.propertyKey {α : Type} : ColorPaint α → Option String
  | .scalar _ => none
  | .stops p _ => some p

/-- The `circle-radius` paint value produced by `calcMarkerSize`. -/
inductive SizePaint where
  | radius (q : ℚ)
  | stops (property : String) (stops : List (ℕ × ℚ))
deriving DecidableEq

/-- The stop list of a size paint value (`[]` for a scalar radius). -/
def SizePaint.stopList : SizePaint → List (ℕ × ℚ)
  | .radius _ => []
  | .stops _ s => s

/-- Whether a size paint value is a stop spec. -/
def SizePaint.isStops : SizePaint → Bool
  | .radius _ => false
  | .stops _ _ => true

/-- `calcMarkerColor(trace, hash)` (convert.js lines 185-214): for an array,
iterate `Object.keys(hash[COLOR_PROP])` pushing `[recorded index, colorFn(val)]`
and wrap them (note: the source sets `property: SIZE_PROP` here); for a scalar,
pass the raw color through. -/
def calcMarkerColor {α : Type} [DecidableEq α] (t : Trace α)
    (hash : MarkerHash α) : ColorPaint α :=
  match t.markerColor with
  | .arr _ =>
    let colorFn := t.colorScaleFn.getD id
    let vals := jkeys hash.colorMap
    let stops := vals.map (fun v => ((jget hash.colorMap v).getD 0, colorFn v))
    .stops SIZE_PROP stops
  | .scalar c => .scalar c

/-- Insertion of one stop into a list sorted ascending by the index key; models
one placement of `Array.prototype.sort` with comparator `(a, b) => a[0] - b[0]`. -/
def insertStop (a : ℕ × ℚ) : List (ℕ × ℚ) → List (ℕ × ℚ)
  | [] => [a]
  | b :: r => if a.1 ≤ b.1 then a :: b :: r else b :: insertStop a r

/-- `stops.sort(function(a, b) { return a[0] - b[0]; })` (convert.js lines
233-235): sort the stop list ascending by its index key. -/
def sortStops : List (ℕ × ℚ) → List (ℕ × ℚ)
  | [] => []
  | a :: r => insertStop a (sortStops r)

/-- `calcMarkerSize(trace, hash)` (convert.js lines 216-247): for an array,
build `[recorded index, sizeFn(val)]` stops from `Object.keys(hash[SIZE_PROP])`
and sort them by index; for a scalar, the radius is `marker.size / 2`. -/
def calcMarkerSize {α : Type} [DecidableEq α] (sizeFn : Option α → ℚ)
    (t : Trace α) (hash : MarkerHash α) : SizePaint :=
  match t.markerSize with
  | .arr _ =>
    let vals := jkeys hash.sizeMap
    let stops := vals.map (fun v => ((jget hash.sizeMap v).getD 0, sizeFn v))
    .stops SIZE_PROP (sortStops stops)
  | .scalar q => .radius (q / 2)

/-- The loop of `getCoords` (convert.js lines 108-121) followed by the final
`coords.push(lineString)`, traversing `lon` structurally with the matching
prefix of `lat` (an out-of-range `lat[i]` reads as `undefined`, i.e. invalid). -/
def getCoordsGo (connectgaps : Bool) :
    List CoordVal → List CoordVal → List (ℚ × ℚ) → List (List (ℚ × ℚ))
  | [], _, lineString => [lineString]
  | lon :: lons, lats, lineString =>
    let lat := lats.headD none
    if checkLonLat lon lat then
      getCoordsGo connectgaps lons lats.tail (lineString ++ [(lon.getD 0, lat.getD 0)])
    else if !connectgaps && !lineString.isEmpty then
      lineString :: getCoordsGo connectgaps lons lats.tail []
    else
      getCoordsGo connectgaps lons lats.tail lineString

/-- `getCoords(trace)` (convert.js lines 101-124). -/
def getCoords {α : Type} (t : Trace α) : List (List (ℚ × ℚ)) :=
  getCoordsGo t.connectgaps t.lon t.lat []

/-- A GeoJSON geometry container as emitted by convert.js. -/
inductive GeoJSON where
  | point (coordinates : List ℚ)
  | polygon (coordinates : List (List (ℚ × ℚ)))
  | multiLineString (coordinates : List (List (ℚ × ℚ)))
  | featureCollection (features : List Feature)
deriving DecidableEq

/-- `makeBlankGeoJSON()` (convert.js lines 94-99). -/
def makeBlankGeoJSON : GeoJSON := .point []

/-- The paint object of one layer. -/
inductive Paint (α : Type) where
  | empty
  | fillPaint (fillColor : α)
  | linePaint (width : ℚ) (color : α) (opacity : ℚ)
  | circlePaint (opacity : ℚ) (color : ColorPaint α) (radius : SizePaint)
deriving DecidableEq

/-- One layer container: geojson + layout visibility + paint. -/
structure Layer (α : Type) where
  geojson : GeoJSON
  visibility : String
  paint : Paint α
deriving DecidableEq

/-- `initContainer()` (convert.js lines 86-92): the hidden placeholder layer. -/
def initContainer {α : Type} : Layer α :=
  ⟨makeBlankGeoJSON, "none", .empty⟩

/-- The value returned by `convert` (convert.js lines 79-83). -/
structure Converted (α : Type) where
  fill : Layer α
  lines : Layer α
  markers : Layer α
deriving DecidableEq

/-- `convert(trace)` (convert.js lines 24-84), with the external bubble-size
capability `sizeFn` (`makeBubbleSizeFn(trace)`) passed as a parameter. -/
def convert {α : Type} [DecidableEq α] (sizeFn : Option α → ℚ) (t : Trace α) :
    Converted α :=
  let isVisible := t.visible
  let hasFill := !(t.fill == "none")
  let hasLines := t.hasLines
  let hasMarkers := t.hasMarkers
  let coords := if isVisible && (hasFill || hasLines) then getCoords t else []
  let fill : Layer α :=
    if isVisible && hasFill then
      ⟨.polygon coords, "visible", .fillPaint t.fillcolor⟩
    else initContainer
  let lines : Layer α :=
    if isVisible && hasLines then
      ⟨.multiLineString coords, "visible",
        .linePaint t.lineWidth t.lineColor t.opacity⟩
    else initContainer
  let markers : Layer α :=
    if isVisible && hasMarkers then
      let fh := makeMarkerGeoJSON t
      ⟨.featureCollection fh.1, "visible",
        .circlePaint (t.opacity * t.markerOpacity)
          (calcMarkerColor t fh.2) (calcMarkerSize sizeFn t fh.2)⟩
    else initContainer
  ⟨fill, lines, markers⟩

/-! Specification-side helper definitions used to state properties of the
embedded functions (these are not translations of source code; they express the
quantities the claims talk about: maximal valid runs, the list of valid points,
the per-property map built by the marker scan, sortedness of a stop list). -/

/-- Number of maximal runs of consecutive valid points still to be started,
given whether the scan is currently inside a run. -/
def numRunsGo : Bool → List CoordVal → List CoordVal → ℕ
  | _, [], _ => 0
  | inRun, lon :: lons, lats =>
    if checkLonLat lon (lats.headD none) then
      (if inRun then 0 else 1) + numRunsGo true lons lats.tail
    else numRunsGo false lons lats.tail

/-- Number of maximal runs of consecutive valid points in a lon/lat sequence. -/
def numRuns (lon lat : List CoordVal) : ℕ := numRunsGo false lon lat

/-- Whether the scan finishes inside a run of valid points. -/
def endsInRun : Bool → List CoordVal → List CoordVal → Bool
  | inRun, [], _ => inRun
  | _, lon :: lons, lats => endsInRun (checkLonLat lon (lats.headD none)) lons lats.tail

/-- Whether the point sequence ends with a valid point (false for the empty
sequence). -/
def endsValid (lon lat : List CoordVal) : Bool := endsInRun false lon lat

/-- Whether the point sequence contains no valid point at all. -/
def noValidPt : List CoordVal → List CoordVal → Bool
  | [], _ => true
  | lon :: lons, lats => !checkLonLat lon (lats.headD none) && noValidPt lons lats.tail

/-- The coordinate pairs of the valid points, in their original order. -/
def validPts : List CoordVal → List CoordVal → List (ℚ × ℚ)
  | [], _ => []
  | lon :: lons, lats =>
    if checkLonLat lon (lats.headD none) then
      (lon.getD 0, (lats.headD none).getD 0) :: validPts lons lats.tail
    else validPts lons lats.tail

/-- The per-property value-to-index map produced by running `translate` on the
first `n` positions of the array `cont` (the map component of the marker scan). -/
def buildMap {α : Type} [DecidableEq α] (cont : List α) (n : ℕ) : JMap α :=
  (List.range n).foldl (fun m i => (translate m cont i).2) []

/-- Whether a stop list is sorted ascending by its index key. -/
def isSortedFst {β : Type} : List (ℕ × β) → Bool
  | [] => true
  | [_] => true
  | a :: b :: r => decide (a.1 ≤ b.1) && isSortedFst (b :: r)

/-! Concrete traces used by the concrete-input theorems. -/

/-- A visible markers-only trace with three valid points and
`marker.color = [a, b, a]`, no colorscale, scalar `marker.size = 10`
(spec scenario 3). -/
def c1trace : Trace String :=
  { visible := true, fill := "none", hasLines := false, hasMarkers := true
    lon := [some 0, some 1, some 2], lat := [some 0, some 1, some 2]
    connectgaps := false, fillcolor := "f", lineWidth := 1, lineColor := "l"
    opacity := 1, markerOpacity := 1
    markerColor := .arr ["a", "b", "a"], markerSize := .scalar 10
    colorScaleFn := none }

/-- Like `c1trace` but with `marker.size` also the array `[a, b, a]`. -/
def c2trace : Trace String :=
  { c1trace with markerSize := .arr ["a", "b", "a"] }

/-- A trace whose single point is invalid (`lon = NaN`) while
`marker.color = [a]` is array-valued. -/
def c3bad : Trace String :=
  { c1trace with
    markerColor := .arr ["a"]
    lon := [none]
    lat := [some 0] }

/-- A trace with an invalid first point and a valid second point, with both
marker style attributes array-valued. -/
def c3wit : Trace String :=
  { c1trace with
    markerColor := .arr ["a", "b"]
    markerSize := .arr ["x", "y"]
    lon := [none, some 1]
    lat := [some 0, some 1] }

/-- A trace whose points are one valid point followed by one invalid point,
with `connectgaps = false`. -/
def c4bad : Trace String :=
  { c1trace with
    markerColor := .scalar "red"
    lon := [some 1, none]
    lat := [some 1, none] }

/-- Spec scenario 1: `lon = [1, 2, NaN, 3]`, `lat = [1, 2, NaN, 3]`,
`connectgaps = false`. -/
def scen4 : Trace String :=
  { c1trace with
    markerColor := .scalar "red"
    lon := [some 1, some 2, none, some 3]
    lat := [some 1, some 2, none, some 3] }

/-- Spec scenario 2: same points as scenario 1 but `connectgaps = true`. -/
def scen5 : Trace String :=
  { scen4 with connectgaps := true }

/-- An invisible trace whose every other attribute asks for all three layers. -/
def c7trace : Trace String :=
  { visible := false, fill := "toself", hasLines := true, hasMarkers := true
    lon := [some 0, some 1], lat := [some 0, some 1]
    connectgaps := true, fillcolor := "f", lineWidth := 2, lineColor := "l"
    opacity := 1, markerOpacity := 1
    markerColor := .arr ["a", "b"], markerSize := .arr ["a", "b"]
    colorScaleFn := some (fun v => v) }

/-! Lemmas about the JS-object model and the per-property index map. -/

theorem jget_jset {α : Type} [DecidableEq α] (m : JMap α) (k : Option α) (v : ℕ)
    (k' : Option α) :
    jget (jset m k v) k' = if k' = k then some v else jget m k' := by
  induction m with
  | nil =>
    simp only [jset, jget]
    split_ifs <;> simp_all
  | cons hd tl ih =>
    obtain ⟨k1, v1⟩ := hd
    simp only [jset, jget]
    split_ifs <;> simp_all [jget]

theorem truthy_isSome {o : Option ℕ} (h : truthy o = true) : o.isSome = true := by
  cases o <;> simp_all [truthy]

theorem buildMap_succ {α : Type} [DecidableEq α] (cont : List α) (n : ℕ) :
    buildMap cont (n + 1) = translateMap (buildMap cont n) (cont.get? n) n := by
  unfold buildMap
  rw [List.range_succ, List.foldl_append]
  rfl

theorem buildMap_zero {α : Type} [DecidableEq α] (cont : List α) :
    buildMap cont 0 = [] := rfl

theorem jget_buildMap_isSome {α : Type} [DecidableEq α] (cont : List α) :
    ∀ (n : ℕ) (k : Option α),
      (jget (buildMap cont n) k).isSome = true ↔ ∃ i, i < n ∧ cont.get? i = k := by
  intro n
  induction n with
  | zero => intro k; simp [buildMap_zero, jget]
  | succ n ih =>
    intro k
    rw [buildMap_succ, translateMap]
    by_cases h : truthy (jget (buildMap cont n) (cont.get? n)) = true
    · rw [if_pos h]
      constructor
      · intro hs
        obtain ⟨i, hi, hv⟩ := (ih k).mp hs
        exact ⟨i, Nat.lt_succ_of_lt hi, hv⟩
      · rintro ⟨i, hi, hv⟩
        rcases Nat.lt_succ_iff_lt_or_eq.mp hi with hi' | rfl
        · exact (ih k).mpr ⟨i, hi', hv⟩
        · rw [← hv]
          exact truthy_isSome h
    · rw [if_neg h, jget_jset]
      by_cases hk : k = cont.get? n
      · subst hk
        simp only [if_pos rfl]
        constructor
        · intro _
          exact ⟨n, Nat.lt_succ_self n, rfl⟩
        · intro _
          rfl
      · rw [if_neg hk]
        rw [ih k]
        constructor
        · rintro ⟨i, hi, hv⟩
          exact ⟨i, Nat.lt_succ_of_lt hi, hv⟩
        · rintro ⟨i, hi, hv⟩
          rcases Nat.lt_succ_iff_lt_or_eq.mp hi with hi' | rfl
          · exact ⟨i, hi', hv⟩
          · exact absurd hv.symm hk

theorem jget_buildMap_spec {α : Type} [DecidableEq α] (cont : List α) :
    ∀ (n : ℕ) (k : Option α) (i : ℕ),
      jget (buildMap cont n) k = some i → i < n ∧ cont.get? i = k := by
  intro n
  induction n with
  | zero => intro k i h; simp [buildMap_zero, jget] at h
  | succ n ih =>
    intro k i h
    rw [buildMap_succ, translateMap] at h
    by_cases ht : truthy (jget (buildMap cont n) (cont.get? n)) = true
    · rw [if_pos ht] at h
      obtain ⟨hi, hv⟩ := ih k i h
      exact ⟨Nat.lt_succ_of_lt hi, hv⟩
    · rw [if_neg ht, jget_jset] at h
      by_cases hk : k = cont.get? n
      · rw [if_pos hk] at h
        obtain rfl : n = i := by injection h
        exact ⟨Nat.lt_succ_self n, hk.symm⟩
      · rw [if_neg hk] at h
        obtain ⟨hi, hv⟩ := ih k i h
        exact ⟨Nat.lt_succ_of_lt hi, hv⟩

/-! Projection lemmas: the per-property maps of the marker scan are exactly the
maps built by iterating `translate` over all point positions. -/

theorem markerStep_colorMap {α : Type} [DecidableEq α] (t : Trace α) (cont : List α)
    (h : t.markerColor = .arr cont) (st : List Feature × MarkerHash α) (i : ℕ) :
    (markerStep t st i).2.colorMap = (translate st.2.colorMap cont i).2 := by
  simp [markerStep, h]

theorem markerStep_sizeMap {α : Type} [DecidableEq α] (t : Trace α) (cont : List α)
    (h : t.markerSize = .arr cont) (st : List Feature × MarkerHash α) (i : ℕ) :
    (markerStep t st i).2.sizeMap = (translate st.2.sizeMap cont i).2 := by
  simp [markerStep, h]

theorem foldl_markerStep_colorMap {α : Type} [DecidableEq α] (t : Trace α)
    (cont : List α) (h : t.markerColor = .arr cont) :
    ∀ (l : List ℕ) (st : List Feature × MarkerHash α),
      ((l.foldl (markerStep t) st).2).colorMap
        = l.foldl (fun m i => (translate m cont i).2) st.2.colorMap := by
  intro l
  induction l with
  | nil => intro st; rfl
  | cons i l ih =>
    intro st
    rw [List.foldl_cons, List.foldl_cons, ih, markerStep_colorMap t cont h]

theorem foldl_markerStep_sizeMap {α : Type} [DecidableEq α] (t : Trace α)
    (cont : List α) (h : t.markerSize = .arr cont) :
    ∀ (l : List ℕ) (st : List Feature × MarkerHash α),
      ((l.foldl (markerStep t) st).2).sizeMap
        = l.foldl (fun m i => (translate m cont i).2) st.2.sizeMap := by
  intro l
  induction l with
  | nil => intro st; rfl
  | cons i l ih =>
    intro st
    rw [List.foldl_cons, List.foldl_cons, ih, markerStep_sizeMap t cont h]

theorem colorMap_makeMarkerGeoJSON {α : Type} [DecidableEq α] (t : Trace α)
    (cont : List α) (h : t.markerColor = .arr cont) :
    (makeMarkerGeoJSON t).2.colorMap = buildMap cont t.lon.length := by
  unfold makeMarkerGeoJSON buildMap
  exact foldl_markerStep_colorMap t cont h _ _

theorem sizeMap_makeMarkerGeoJSON {α : Type} [DecidableEq α] (t : Trace α)
    (cont : List α) (h : t.markerSize = .arr cont) :
    (makeMarkerGeoJSON t).2.sizeMap = buildMap cont t.lon.length := by
  unfold makeMarkerGeoJSON buildMap
  exact foldl_markerStep_sizeMap t cont h _ _

/-! Lemmas about coordinate assembly. -/

theorem getCoordsGo_length_pos (cg : Bool) :
    ∀ (lon lats : List CoordVal) (acc : List (ℚ × ℚ)),
      1 ≤ (getCoordsGo cg lon lats acc).length := by
  intro lon
  induction lon with
  | nil => intro lats acc; simp [getCoordsGo]
  | cons l lons ih =>
    intro lats acc
    simp only [getCoordsGo]
    split_ifs
    · exact ih _ _
    · simp
    · exact ih _ _

theorem getCoordsGo_true :
    ∀ (lon lats : List CoordVal) (acc : List (ℚ × ℚ)),
      getCoordsGo true lon lats acc = [acc ++ validPts lon lats] := by
  intro lon
  induction lon with
  | nil => intro lats acc; simp [getCoordsGo, validPts]
  | cons l lons ih =>
    intro lats acc
    simp only [getCoordsGo, validPts]
    by_cases h : checkLonLat l (lats.headD none) = true
    · rw [if_pos h, if_pos h, ih]
      simp
    · rw [if_neg h, if_neg h]
      simp only [Bool.not_true, Bool.false_and, if_neg (by simp : ¬((false : Bool) = true))]
      exact ih _ _

theorem getCoordsGo_false_length :
    ∀ (lon lats : List CoordVal) (acc : List (ℚ × ℚ)),
      (getCoordsGo false lon lats acc).length
        = (if acc.isEmpty then 0 else 1) + numRunsGo (!acc.isEmpty) lon lats
          + (if endsInRun (!acc.isEmpty) lon lats then 0 else 1) := by
  intro lon
  induction lon with
  | nil =>
    intro lats acc
    cases acc <;> simp [getCoordsGo, numRunsGo, endsInRun]
  | cons l lons ih =>
    intro lats acc
    cases hb : checkLonLat l (List.headD lats none) with
    | true =>
      simp only [getCoordsGo, numRunsGo, endsInRun, hb]
      cases acc with
      | nil => simp [ih]
      | cons a as => simp [ih]
    | false =>
      simp only [getCoordsGo, numRunsGo, endsInRun, hb]
      cases acc with
      | nil => simp [ih]
      | cons a as =>
        simp [ih]
        omega

theorem getCoordsGo_false_noValid :
    ∀ (lon lats : List CoordVal), noValidPt lon lats = true →
      getCoordsGo false lon lats [] = [[]] := by
  intro lon
  induction lon with
  | nil => intro lats _; rfl
  | cons l lons ih =>
    intro lats h
    simp only [noValidPt, Bool.and_eq_true, Bool.not_eq_true'] at h
    obtain ⟨h1, h2⟩ := h
    simp only [getCoordsGo, h1]
    simp only [if_neg (by simp : ¬((false : Bool) = true))]
    simp only [List.isEmpty_nil, Bool.not_true, Bool.and_false,
      if_neg (by simp : ¬((false : Bool) = true))]
    exact ih lats.tail h2

/-! Claim theorems. -/

/-- C1: the claim says that within one style property each raw value keeps the
index of its first occurrence (for marker.color = [a, b, a]: indices a = 0 and
b = 1, stops [[0, a], [1, b]], feature color indices [0, 1, 0]).  The code's
falsy presence check overwrites an index recorded as 0: at that very input the
final map is {a: 2, b: 1}, the features carry color indices [0, 1, 2], and the
emitted stops are [[2, a], [1, b]]. -/
theorem c1_value_indexer_overwrites_at_zero :
    (makeMarkerGeoJSON c1trace).2.colorMap = [(some "a", 2), (some "b", 1)]
    ∧ (makeMarkerGeoJSON c1trace).1.map (fun f => f.colorIdx) = [some 0, some 1, some 2]
    ∧ calcMarkerColor c1trace (makeMarkerGeoJSON c1trace).2
        = .stops SIZE_PROP [(2, some "a"), (1, some "b")] := by
  decide

/-- C2: the claim says every emitted stop list (circle-color and circle-radius)
is sorted ascending by index.  On marker.color = marker.size = [a, b, a] the
circle-color stop list comes out as [[2, a], [1, b]], which is not sorted (the
circle-radius stop list is re-sorted by the code and is sorted here). -/
theorem c2_color_stops_not_sorted :
    (calcMarkerColor c2trace (makeMarkerGeoJSON c2trace).2).stopList
        = [(2, some "a"), (1, some "b")]
    ∧ isSortedFst ((calcMarkerColor c2trace (makeMarkerGeoJSON c2trace).2).stopList) = false
    ∧ isSortedFst ((calcMarkerSize (fun _ => 1) c2trace (makeMarkerGeoJSON c2trace).2).stopList)
        = true := by
  decide

/-- C3 counterexample: the claim says a raw value is indexed only when it is
encountered at a valid point.  For a trace whose single point is invalid
(lon = NaN) and marker.color = [a], no feature is emitted yet the value a is
recorded in the color map with index 0. -/
theorem c3_invalid_point_indexed :
    (makeMarkerGeoJSON c3bad).1 = []
    ∧ (makeMarkerGeoJSON c3bad).2.colorMap = [(some "a", 0)]
    ∧ (jget (makeMarkerGeoJSON c3bad).2.colorMap (some "a")).isSome = true := by
  decide

/-- C3 (amended): for every trace with an array-valued marker style attribute
(color or size), a raw value is recorded in that property's map exactly when it
is read at some position of the scan (valid or invalid point alike), and every
recorded index is a position at which that value is read. -/
theorem c3_indexing_ignores_validity {α : Type} [DecidableEq α] (t : Trace α)
    (contC contS : List α) (v : Option α) :
    (t.markerColor = .arr contC →
      (((jget (makeMarkerGeoJSON t).2.colorMap v).isSome = true
          ↔ ∃ i, i < t.lon.length ∧ contC.get? i = v)
       ∧ ∀ i, jget (makeMarkerGeoJSON t).2.colorMap v = some i →
           i < t.lon.length ∧ contC.get? i = v))
    ∧ (t.markerSize = .arr contS →
      (((jget (makeMarkerGeoJSON t).2.sizeMap v).isSome = true
          ↔ ∃ i, i < t.lon.length ∧ contS.get? i = v)
       ∧ ∀ i, jget (makeMarkerGeoJSON t).2.sizeMap v = some i →
           i < t.lon.length ∧ contS.get? i = v)) := by
  constructor
  · intro h
    rw [colorMap_makeMarkerGeoJSON t contC h]
    exact ⟨jget_buildMap_isSome contC t.lon.length v,
      fun i hi => jget_buildMap_spec contC t.lon.length v i hi⟩
  · intro h
    rw [sizeMap_makeMarkerGeoJSON t contS h]
    exact ⟨jget_buildMap_isSome contS t.lon.length v,
      fun i hi => jget_buildMap_spec contS t.lon.length v i hi⟩

/-- C3 witness: the amended statement instantiated at a concrete trace with an
invalid first point, both style attributes array-valued, and the value a. -/
theorem c3_indexing_ignores_validity_witness :
    (((jget (makeMarkerGeoJSON c3wit).2.colorMap (some "a")).isSome = true
        ↔ ∃ i, i < c3wit.lon.length ∧ ["a", "b"].get? i = some "a")
     ∧ ∀ i, jget (makeMarkerGeoJSON c3wit).2.colorMap (some "a") = some i →
         i < c3wit.lon.length ∧ ["a", "b"].get? i = some "a")
    ∧ (((jget (makeMarkerGeoJSON c3wit).2.sizeMap (some "a")).isSome = true
        ↔ ∃ i, i < c3wit.lon.length ∧ ["x", "y"].get? i = some "a")
     ∧ ∀ i, jget (makeMarkerGeoJSON c3wit).2.sizeMap (some "a") = some i →
         i < c3wit.lon.length ∧ ["x", "y"].get? i = some "a") :=
  ⟨(c3_indexing_ignores_validity c3wit ["a", "b"] ["x", "y"] (some "a")).1 rfl,
   (c3_indexing_ignores_validity c3wit ["a", "b"] ["x", "y"] (some "a")).2 rfl⟩

/-- C4 (amended): with connectgaps false, the number of sub-sequences equals
the number of maximal valid-point runs when the scan ends inside a run, and
that number plus one (a trailing empty sub-sequence) otherwise; with no valid
point at all the output is exactly one empty sub-sequence; and scenario 1
(lon = lat = [1, 2, NaN, 3]) yields [[[1,1],[2,2]], [[3,3]]]. -/
theorem c4_subsequence_count {α : Type} (t : Trace α) (h : t.connectgaps = false) :
    ((getCoords t).length
        = numRuns t.lon t.lat + (if endsValid t.lon t.lat then 0 else 1))
    ∧ (noValidPt t.lon t.lat = true → getCoords t = [[]])
    ∧ getCoords scen4 = [[(1, 1), (2, 2)], [(3, 3)]] := by
  refine ⟨?_, ?_, by decide⟩
  · unfold getCoords numRuns endsValid
    rw [h]
    have hlen := getCoordsGo_false_length t.lon t.lat []
    simpa using hlen
  · intro hnv
    unfold getCoords
    rw [h]
    exact getCoordsGo_false_noValid t.lon t.lat hnv

/-- C4 counterexample: the claim says the number of sub-sequences equals the
number of maximal valid runs.  For lon = lat = [1, NaN] with connectgaps false
there is one maximal run but the output is [[[1,1]], []] with two
sub-sequences (the trailing empty one is always appended). -/
theorem c4_trailing_gap_counterexample :
    getCoords c4bad = [[(1, 1)], []]
    ∧ numRuns c4bad.lon c4bad.lat = 1
    ∧ (getCoords c4bad).length ≠ numRuns c4bad.lon c4bad.lat := by
  decide

/-- C4 witness: the amended statement instantiated at scenario 1. -/
theorem c4_subsequence_count_witness :
    ((getCoords scen4).length
        = numRuns scen4.lon scen4.lat + (if endsValid scen4.lon scen4.lat then 0 else 1))
    ∧ (noValidPt scen4.lon scen4.lat = true → getCoords scen4 = [[]])
    ∧ getCoords scen4 = [[(1, 1), (2, 2)], [(3, 3)]] :=
  c4_subsequence_count scen4 rfl

/-- C5: with connectgaps true, coordinate assembly produces exactly one
sub-sequence, containing exactly the valid coordinate pairs in their original
order. -/
theorem c5_connectgaps_single_subsequence {α : Type} (t : Trace α)
    (h : t.connectgaps = true) :
    getCoords t = [validPts t.lon t.lat] := by
  unfold getCoords
  rw [h]
  simpa using getCoordsGo_true t.lon t.lat []

/-- C5 witness: scenario 2 (lon = lat = [1, 2, NaN, 3], connectgaps true)
yields the single sub-sequence [[1,1],[2,2],[3,3]]. -/
theorem c5_connectgaps_single_subsequence_witness :
    getCoords scen5 = [[(1, 1), (2, 2), (3, 3)]] := by
  have h := c5_connectgaps_single_subsequence scen5 rfl
  rw [h]
  decide

/-- C6: for every trace (empty and all-invalid inputs included) the coordinate
assembly output contains at least one sub-sequence. -/
theorem c6_at_least_one_subsequence {α : Type} (t : Trace α) :
    1 ≤ (getCoords t).length :=
  getCoordsGo_length_pos t.connectgaps t.lon t.lat []

/-- C7: for every trace with visible not equal to true, convert returns all
three layers as the hidden placeholder (blank Point geometry, visibility none,
empty paint), regardless of every other attribute. -/
theorem c7_invisible_trace_hidden_layers {α : Type} [DecidableEq α]
    (sizeFn : Option α → ℚ) (t : Trace α) (h : t.visible = false) :
    convert sizeFn t = ⟨initContainer, initContainer, initContainer⟩ := by
  simp [convert, h]

/-- C7 witness: an invisible trace whose other attributes request all three
layers still converts to three hidden placeholders. -/
theorem c7_invisible_trace_hidden_layers_witness :
    convert (fun _ => (3 : ℚ)) c7trace = ⟨initContainer, initContainer, initContainer⟩ :=
  c7_invisible_trace_hidden_layers (fun _ => (3 : ℚ)) c7trace rfl

/-- C8: a scalar marker style attribute never produces a stop spec (scalar
color passes through unchanged, scalar size yields radius = size / 2, in
particular size 10 yields radius 5), while an array-valued attribute always
produces a stop spec. -/
theorem c8_scalar_vs_array_paint {α : Type} [DecidableEq α] (sizeFn : Option α → ℚ)
    (t : Trace α) (hash : MarkerHash α) (c : α) (q : ℚ) (l l2 : List α) :
    calcMarkerColor { t with markerColor := .scalar c } hash = .scalar c
    ∧ calcMarkerSize sizeFn { t with markerSize := .scalar q } hash = .radius (q / 2)
    ∧ (calcMarkerColor { t with markerColor := .arr l } hash).isStops = true
    ∧ (calcMarkerSize sizeFn { t with markerSize := .arr l2 } hash).isStops = true
    ∧ calcMarkerSize sizeFn { t with markerSize := .scalar 10 } hash = .radius 5 := by
  refine ⟨rfl, rfl, rfl, rfl, ?_⟩
  show SizePaint.radius (10 / 2) = SizePaint.radius 5
  norm_num

/-- C9: whenever marker.color is array-valued, the stop spec returned as the
circle-color paint value carries the size property key (circle-size), not the
color property key (circle-color). -/
theorem c9_color_stops_use_size_property {α : Type} [DecidableEq α] (t : Trace α)
    (hash : MarkerHash α) (l : List α) :
    (calcMarkerColor { t with markerColor := .arr l } hash).propertyKey = some SIZE_PROP
    ∧ SIZE_PROP ≠ COLOR_PROP :=
  ⟨rfl, by decide⟩

end ScatterMapbox
